import Mathlib

/-!
Verification of the MERC-20 token ledger state machine
(`examples/erc20-port/contract/src/erc20.compact` and its simulator
`merc20-simulator.ts`).

Embedding choices:
* `Bytes<32>` values (addresses, secret keys) are modelled abstractly as `Nat`.
* `Uint<222>` values are `Nat`s; the failing cast `(x) as Uint<222>` is an
  explicit check `x < U222`.
* Compact's `Map` is an association list: `lookup`/`member` find the first
  occurrence of a key, `insert` replaces the first occurrence in place or
  appends.  An absent key is distinct from a key explicitly bound at `0`,
  exactly as in the Compact runtime (`member` observes the difference).
* `compute_address` is `persistent_hash` of a domain tag and the secret key,
  an external cryptographic primitive; every operation is parametrised by a
  function `ca : Bytes32 → Bytes32` standing for it, and `get_secret_key()`
  is the caller-supplied `sk` argument.
* A failing `assert` (or failing cast) aborts the whole circuit call; the
  simulator then keeps its previous circuit context, so a failing call leaves
  the ledger unchanged.  A circuit is therefore `Except Err Ledger`, and
  `transferCall`/`transferFromCall` mirror the simulator's rollback.
-/

namespace MERC20

/-- Addresses and secret keys: 32-byte values, modelled as naturals. -/
abbrev Bytes32 := Nat

/-- The exclusive upper bound of the `Uint<222>` range. -/
def U222 : Nat := 2 ^ 222

/-- First-occurrence lookup in an association list (Compact `Map.lookup`). -/
def lookupA {α : Type} : List (Bytes32 × α) → Bytes32 → Option α
  | [], _ => none
  | (k', v) :: t, k => if k' = k then some v else lookupA t k

/-- Key membership (Compact `Map.member`). -/
def memberA {α : Type} (m : List (Bytes32 × α)) (k : Bytes32) : Bool :=
  (lookupA m k).isSome

/-- Insert replaces the first binding of the key, or appends a new binding
(Compact `Map.insert`). -/
def insertA {α : Type} : List (Bytes32 × α) → Bytes32 → α → List (Bytes32 × α)
  | [], k, v => [(k, v)]
  | (k', v') :: t, k, v =>
      if k' = k then (k, v) :: t else (k', v') :: insertA t k v

/-- Lookup with default `0`, the contract's `m.member(k) ? m.lookup(k) : 0`. -/
def lookupD (m : List (Bytes32 × Nat)) (k : Bytes32) : Nat :=
  (lookupA m k).getD 0

/-- Sum of all values stored in a balances map. -/
def sumVals (m : List (Bytes32 × Nat)) : Nat :=
  (m.map Prod.snd).sum

/-- The contract's public ledger state. -/
structure Ledger where
  tokenName : String
  tokenSymbol : String
  tokenDecimals : Nat
  totalSupply : Nat
  balances : List (Bytes32 × Nat)
  allowances : List (Bytes32 × List (Bytes32 × Nat))
  deriving DecidableEq

/-- The failure modes of the mutating circuits: the three `assert` messages
plus the failing narrowing cast in the credit step. -/
inductive Err where
  | InsufficientBalance
  | NoAllowanceSet
  | InsufficientAllowance
  | ArithmeticOverflow
  deriving DecidableEq

/-- The contract constructor: mints `initial_supply` at `mint_address` and
seals the metadata. -/
def construct (initial_supply : Nat) (mint_address : Bytes32)
    (name symbol : String) (decimals : Nat) : Ledger :=
  { tokenName := name
    tokenSymbol := symbol
    tokenDecimals := decimals
    totalSupply := initial_supply
    balances := insertA [] mint_address initial_supply
    allowances := [] }

/-- Circuit `getTotalSupply`. -/
def getTotalSupply (L : Ledger) : Nat :=
  L.totalSupply

/-- Circuit `balanceOf`: stored balance, or `0` when the address is absent. -/
def balanceOf (L : Ledger) (owner : Bytes32) : Nat :=
  match lookupA L.balances owner with
  | some b => b
  | none => 0

/-- Circuit `allowance`: the two-level lookup, `0` when either level is
absent. -/
def allowance (L : Ledger) (owner spender : Bytes32) : Nat :=
  match lookupA L.allowances owner with
  | some inner =>
      match lookupA inner spender with
      | some a => a
      | none => 0
  | none => 0

/-- Circuit `transfer dst amount`, called with secret key `sk`; `ca` is
`compute_address`.  Debits the caller, then credits `dst` through the
checked narrowing cast into the `Uint<222>` range. -/
def transfer (ca : Bytes32 → Bytes32) (L : Ledger) (sk : Bytes32)
    (dst : Bytes32) (amount : Nat) : Except Err Ledger :=
  let sender := ca sk
  let from_balance := lookupD L.balances sender
  if from_balance ≥ amount then
    let bal1 := insertA L.balances sender (from_balance - amount)
    let to_balance := lookupD bal1 dst
    if to_balance + amount < U222 then
      Except.ok { L with balances := insertA bal1 dst (to_balance + amount) }
    else
      Except.error Err.ArithmeticOverflow
  else
    Except.error Err.InsufficientBalance

/-- Circuit `approve spender amount`, called with secret key `sk`: creates
the caller's inner allowance map when absent, then sets the spender's
allowance absolutely. -/
def approve (ca : Bytes32 → Bytes32) (L : Ledger) (sk : Bytes32)
    (spender : Bytes32) (amount : Nat) : Ledger :=
  let owner := ca sk
  let allowances1 :=
    if memberA L.allowances owner then L.allowances
    else insertA L.allowances owner []
  let inner := (lookupA allowances1 owner).getD []
  { L with allowances := insertA allowances1 owner (insertA inner spender amount) }

/-- Circuit `transferFrom source dst amount`, called with secret key `sk`:
checks existence of the allowance entry, then its size, then the source
balance, and finally performs the three writes with the checked credit. -/
def transferFrom (ca : Bytes32 → Bytes32) (L : Ledger) (sk : Bytes32)
    (source dst : Bytes32) (amount : Nat) : Except Err Ledger :=
  let spender := ca sk
  if memberA L.allowances source then
    let inner := (lookupA L.allowances source).getD []
    if memberA inner spender then
      let allow := (lookupA inner spender).getD 0
      if allow ≥ amount then
        let from_balance := lookupD L.balances source
        if from_balance ≥ amount then
          let allowances1 :=
            insertA L.allowances source (insertA inner spender (allow - amount))
          let bal1 := insertA L.balances source (from_balance - amount)
          let to_balance := lookupD bal1 dst
          if to_balance + amount < U222 then
            Except.ok { L with
              balances := insertA bal1 dst (to_balance + amount)
              allowances := allowances1 }
          else
            Except.error Err.ArithmeticOverflow
        else
          Except.error Err.InsufficientBalance
      else
        Except.error Err.InsufficientAllowance
    else
      Except.error Err.NoAllowanceSet
  else
    Except.error Err.NoAllowanceSet

/-- A `transfer` call as performed by the simulator: on failure the previous
circuit context is kept, so the ledger is unchanged. -/
def transferCall (ca : Bytes32 → Bytes32) (L : Ledger) (sk : Bytes32)
    (dst : Bytes32) (amount : Nat) : Ledger × Option Err :=
  match transfer ca L sk dst amount with
  | Except.ok L' => (L', none)
  | Except.error e => (L, some e)

/-- A `transferFrom` call as performed by the simulator: on failure the
previous circuit context is kept, so the ledger is unchanged. -/
def transferFromCall (ca : Bytes32 → Bytes32) (L : Ledger) (sk : Bytes32)
    (source dst : Bytes32) (amount : Nat) : Ledger × Option Err :=
  match transferFrom ca L sk source dst amount with
  | Except.ok L' => (L', none)
  | Except.error e => (L, some e)

/-- One mutating balance-moving operation (caller key and arguments). -/
inductive Op where
  | transferOp (sk dst : Bytes32) (amount : Nat)
  | transferFromOp (sk source dst : Bytes32) (amount : Nat)
  deriving DecidableEq

/-- Apply one operation on a ledger. -/
def applyOp (ca : Bytes32 → Bytes32) (L : Ledger) : Op → Except Err Ledger
  | Op.transferOp sk dst amount => transfer ca L sk dst amount
  | Op.transferFromOp sk source dst amount => transferFrom ca L sk source dst amount

/-- Apply a sequence of operations; the whole run succeeds only when every
operation succeeds. -/
def applyOps (ca : Bytes32 → Bytes32) (L : Ledger) : List Op → Except Err Ledger
  | [] => Except.ok L
  | op :: rest =>
    match applyOp ca L op with
    | Except.ok L' => applyOps ca L' rest
    | Except.error e => Except.error e

/-- Well-typedness of the stored balances: every stored value fits
`Uint<222>`, as the contract's types guarantee on chain. -/
def BalancesTyped (L : Ledger) : Prop :=
  ∀ p ∈ L.balances, p.2 < U222

instance (L : Ledger) : Decidable (BalancesTyped L) := by
  unfold BalancesTyped
  infer_instance

/-- `insertA` and `lookupA` interact as expected: the inserted key is found
with its new value, every other key is unaffected. -/
theorem lookupA_insertA {α : Type} (m : List (Bytes32 × α)) (k k' : Bytes32) (v : α) :
    lookupA (insertA m k v) k' = if k = k' then some v else lookupA m k' := by
  induction m with
  | nil => simp [insertA, lookupA]
  | cons p t ih =>
    obtain ⟨a, b⟩ := p
    by_cases hak : a = k
    · subst hak
      simp only [insertA, if_pos rfl, lookupA]
      split_ifs <;> rfl
    · by_cases hak' : a = k'
      · subst hak'
        simp [insertA, lookupA, hak, Ne.symm hak]
      · simp [insertA, lookupA, hak, hak', ih]

/-- The defaulted lookup after an insert. -/
theorem lookupD_insertA (m : List (Bytes32 × Nat)) (k k' : Bytes32) (v : Nat) :
    lookupD (insertA m k v) k' = if k = k' then v else lookupD m k' := by
  unfold lookupD
  rw [lookupA_insertA]
  by_cases h : k = k' <;> simp [h]

/-- Looking up the freshly inserted key. -/
theorem lookupA_insertA_self {α : Type} (m : List (Bytes32 × α)) (k : Bytes32)
    (v : α) : lookupA (insertA m k v) k = some v := by
  rw [lookupA_insertA]
  simp

/-- Looking up a different key after an insert. -/
theorem lookupA_insertA_ne {α : Type} (m : List (Bytes32 × α)) (k k' : Bytes32)
    (v : α) (h : k ≠ k') : lookupA (insertA m k v) k' = lookupA m k' := by
  rw [lookupA_insertA]
  simp [h]

/-- Defaulted lookup of the freshly inserted key. -/
theorem lookupD_insertA_self (m : List (Bytes32 × Nat)) (k : Bytes32) (v : Nat) :
    lookupD (insertA m k v) k = v := by
  rw [lookupD_insertA]
  simp

/-- Defaulted lookup of a different key after an insert. -/
theorem lookupD_insertA_ne (m : List (Bytes32 × Nat)) (k k' : Bytes32) (v : Nat)
    (h : k ≠ k') : lookupD (insertA m k v) k' = lookupD m k' := by
  rw [lookupD_insertA]
  simp [h]

/-- Inserting over a key currently bound with default `w` changes the sum of
values by exactly the difference between the new and old value. -/
theorem sumVals_insertA (m : List (Bytes32 × Nat)) (k : Bytes32) (v : Nat) :
    sumVals (insertA m k v) + lookupD m k = sumVals m + v := by
  induction m with
  | nil => simp [insertA, sumVals, lookupD, lookupA]
  | cons p t ih =>
    obtain ⟨a, b⟩ := p
    by_cases hak : a = k
    · subst hak
      simp [insertA, sumVals, lookupD, lookupA]
      omega
    · simp only [insertA, hak, if_false, sumVals, List.map_cons, List.sum_cons,
        lookupD, lookupA] at ih ⊢
      omega

/-- Any stored value is at most the sum of all stored values. -/
theorem lookupD_le_sumVals (m : List (Bytes32 × Nat)) (k : Bytes32) :
    lookupD m k ≤ sumVals m := by
  induction m with
  | nil => simp [lookupD, lookupA, sumVals]
  | cons p t ih =>
    obtain ⟨a, b⟩ := p
    by_cases hak : a = k
    · subst hak
      simp [lookupD, lookupA, sumVals]
    · simp only [lookupD, lookupA, hak, if_false, sumVals, List.map_cons,
        List.sum_cons] at *
      omega

/-- `balanceOf` is the defaulted balance lookup. -/
theorem balanceOf_eq_lookupD (L : Ledger) (a : Bytes32) :
    balanceOf L a = lookupD L.balances a := by
  unfold balanceOf lookupD
  cases lookupA L.balances a <;> simp

/-- `allowance` is the defaulted two-level lookup. -/
theorem allowance_eq_lookupD (L : Ledger) (o s : Bytes32) :
    allowance L o s = lookupD ((lookupA L.allowances o).getD []) s := by
  unfold allowance lookupD
  cases lookupA L.allowances o with
  | none => simp [lookupA]
  | some inner => cases h : lookupA inner s <;> simp [h]

/-- A successful lookup returns a stored pair. -/
theorem lookupA_mem {α : Type} (m : List (Bytes32 × α)) (k : Bytes32) (v : α)
    (h : lookupA m k = some v) : (k, v) ∈ m := by
  induction m with
  | nil => simp [lookupA] at h
  | cons p t ih =>
    obtain ⟨a, b⟩ := p
    by_cases hak : a = k
    · subst hak
      simp [lookupA] at h
      simp [h]
    · simp only [lookupA, hak, if_false] at h
      exact List.mem_cons_of_mem _ (ih h)

/-- The `Uint<222>` range is nonempty. -/
theorem U222_pos : 0 < U222 := by
  unfold U222
  positivity

/-- In a well-typed balances map every defaulted lookup fits `Uint<222>`. -/
theorem lookupD_lt_of_typed (m : List (Bytes32 × Nat))
    (hty : ∀ p ∈ m, p.2 < U222) (k : Bytes32) : lookupD m k < U222 := by
  unfold lookupD
  cases h : lookupA m k with
  | none => simpa using U222_pos
  | some v => simpa using hty _ (lookupA_mem m k v h)

/-- Membership in an inserted map: a pair is the new binding or an old one. -/
theorem mem_insertA {α : Type} (m : List (Bytes32 × α)) (k : Bytes32) (v : α)
    (p : Bytes32 × α) (hp : p ∈ insertA m k v) : p = (k, v) ∨ p ∈ m := by
  induction m with
  | nil => simpa [insertA] using hp
  | cons q t ih =>
    obtain ⟨a, b⟩ := q
    by_cases hak : a = k
    · subst hak
      simp only [insertA, if_pos rfl] at hp
      rcases List.mem_cons.mp hp with h | h
      · exact Or.inl h
      · exact Or.inr (List.mem_cons_of_mem _ h)
    · simp only [insertA, hak, if_false] at hp
      rcases List.mem_cons.mp hp with h | h
      · exact Or.inr (by simp [h])
      · rcases ih h with h' | h'
        · exact Or.inl h'
        · exact Or.inr (List.mem_cons_of_mem _ h')

/-- Insertion of an in-range value preserves well-typedness. -/
theorem typed_insertA (m : List (Bytes32 × Nat)) (k : Bytes32) (v : Nat)
    (hty : ∀ p ∈ m, p.2 < U222) (hv : v < U222) :
    ∀ p ∈ insertA m k v, p.2 < U222 := by
  intro p hp
  rcases mem_insertA m k v p hp with h | h
  · simp [h, hv]
  · exact hty p h

/-- Whether a circuit call succeeded. -/
def isOk {α : Type} (r : Except Err α) : Bool :=
  match r with
  | Except.ok _ => true
  | Except.error _ => false

/-- The balances map written by a successful `transfer` or `transferFrom`
moving `amount` from `source` into `dst`, given the pre-state map. -/
def movedBalances (m : List (Bytes32 × Nat)) (source dst : Bytes32)
    (amount : Nat) : List (Bytes32 × Nat) :=
  insertA (insertA m source (lookupD m source - amount)) dst
    (lookupD (insertA m source (lookupD m source - amount)) dst + amount)

/-- The allowances map written by a successful `transferFrom`. -/
def spentAllowances (al : List (Bytes32 × List (Bytes32 × Nat)))
    (source spender : Bytes32) (amount : Nat) :
    List (Bytes32 × List (Bytes32 × Nat)) :=
  insertA al source
    (insertA ((lookupA al source).getD []) spender
      (lookupD ((lookupA al source).getD []) spender - amount))

/-- Inversion of a successful `transfer`: the balance precondition and the
overflow check passed, and the result is the debit followed by the credit. -/
theorem transfer_ok_inv (ca : Bytes32 → Bytes32) (L : Ledger) (sk dst : Bytes32)
    (amount : Nat) (M : Ledger)
    (h : transfer ca L sk dst amount = Except.ok M) :
    lookupD L.balances (ca sk) ≥ amount ∧
    lookupD (insertA L.balances (ca sk) (lookupD L.balances (ca sk) - amount)) dst
      + amount < U222 ∧
    M = { L with balances := movedBalances L.balances (ca sk) dst amount } := by
  simp only [transfer] at h
  split_ifs at h with h1 h2
  simp only [Except.ok.injEq] at h
  exact ⟨h1, h2, h.symm⟩

/-- Introduction of a successful `transfer` from its two checks. -/
theorem transfer_ok_intro (ca : Bytes32 → Bytes32) (L : Ledger) (sk dst : Bytes32)
    (amount : Nat)
    (h1 : lookupD L.balances (ca sk) ≥ amount)
    (h2 : lookupD (insertA L.balances (ca sk) (lookupD L.balances (ca sk) - amount)) dst
      + amount < U222) :
    transfer ca L sk dst amount =
      Except.ok { L with balances := movedBalances L.balances (ca sk) dst amount } := by
  simp [transfer, movedBalances, h1, h2]

/-- Inversion of a successful `transferFrom`: all three preconditions and the
overflow check passed, and the result performs the allowance decrement, the
debit and the credit. -/
theorem transferFrom_ok_inv (ca : Bytes32 → Bytes32) (L : Ledger)
    (sk source dst : Bytes32) (amount : Nat) (M : Ledger)
    (h : transferFrom ca L sk source dst amount = Except.ok M) :
    memberA L.allowances source = true ∧
    memberA ((lookupA L.allowances source).getD []) (ca sk) = true ∧
    lookupD ((lookupA L.allowances source).getD []) (ca sk) ≥ amount ∧
    lookupD L.balances source ≥ amount ∧
    lookupD (insertA L.balances source (lookupD L.balances source - amount)) dst
      + amount < U222 ∧
    M = { L with
      balances := movedBalances L.balances source dst amount
      allowances := spentAllowances L.allowances source (ca sk) amount } := by
  simp only [transferFrom] at h
  split_ifs at h with h1 h2 h3 h4 h5
  simp only [Except.ok.injEq] at h
  exact ⟨h1, h2, h3, h4, h5, h.symm⟩

/-- Introduction of a successful `transferFrom` from its four checks. -/
theorem transferFrom_ok_intro (ca : Bytes32 → Bytes32) (L : Ledger)
    (sk source dst : Bytes32) (amount : Nat)
    (h1 : memberA L.allowances source = true)
    (h2 : memberA ((lookupA L.allowances source).getD []) (ca sk) = true)
    (h3 : lookupD ((lookupA L.allowances source).getD []) (ca sk) ≥ amount)
    (h4 : lookupD L.balances source ≥ amount)
    (h5 : lookupD (insertA L.balances source (lookupD L.balances source - amount)) dst
      + amount < U222) :
    transferFrom ca L sk source dst amount =
      Except.ok { L with
        balances := movedBalances L.balances source dst amount
        allowances := spentAllowances L.allowances source (ca sk) amount } := by
  simp only [transferFrom]
  rw [if_pos h1, if_pos h2,
    if_pos (show (lookupA ((lookupA L.allowances source).getD []) (ca sk)).getD 0
      ≥ amount from h3),
    if_pos h4, if_pos h5]
  simp [movedBalances, spentAllowances, lookupD]

/-- Moving `amount` between balances preserves the sum of stored values. -/
theorem sumVals_movedBalances (m : List (Bytes32 × Nat)) (source dst : Bytes32)
    (amount : Nat) (h : lookupD m source ≥ amount) :
    sumVals (movedBalances m source dst amount) = sumVals m := by
  have e1 := sumVals_insertA m source (lookupD m source - amount)
  have e2 := sumVals_insertA (insertA m source (lookupD m source - amount)) dst
    (lookupD (insertA m source (lookupD m source - amount)) dst + amount)
  simp only [movedBalances]
  omega

/-- A successful `transfer` preserves the balance sum and the total supply. -/
theorem transfer_ok_conserves (ca : Bytes32 → Bytes32) (L : Ledger)
    (sk dst : Bytes32) (amount : Nat) (M : Ledger)
    (h : transfer ca L sk dst amount = Except.ok M) :
    sumVals M.balances = sumVals L.balances ∧ M.totalSupply = L.totalSupply := by
  obtain ⟨h1, -, rfl⟩ := transfer_ok_inv ca L sk dst amount M h
  exact ⟨sumVals_movedBalances L.balances (ca sk) dst amount h1, rfl⟩

/-- A successful `transferFrom` preserves the balance sum and the total
supply. -/
theorem transferFrom_ok_conserves (ca : Bytes32 → Bytes32) (L : Ledger)
    (sk source dst : Bytes32) (amount : Nat) (M : Ledger)
    (h : transferFrom ca L sk source dst amount = Except.ok M) :
    sumVals M.balances = sumVals L.balances ∧ M.totalSupply = L.totalSupply := by
  obtain ⟨-, -, -, h4, -, rfl⟩ := transferFrom_ok_inv ca L sk source dst amount M h
  exact ⟨sumVals_movedBalances L.balances source dst amount h4, rfl⟩

/-- Any successful balance-moving operation preserves sum and supply. -/
theorem applyOp_conserves (ca : Bytes32 → Bytes32) (L : Ledger) (op : Op)
    (M : Ledger) (h : applyOp ca L op = Except.ok M) :
    sumVals M.balances = sumVals L.balances ∧ M.totalSupply = L.totalSupply := by
  cases op with
  | transferOp sk dst amount => exact transfer_ok_conserves ca L sk dst amount M h
  | transferFromOp sk source dst amount =>
      exact transferFrom_ok_conserves ca L sk source dst amount M h

/-- Conservation is transported along any successful run. -/
theorem applyOps_conserves (ca : Bytes32 → Bytes32) (ops : List Op) :
    ∀ L M : Ledger, applyOps ca L ops = Except.ok M →
      sumVals L.balances = L.totalSupply → sumVals M.balances = M.totalSupply := by
  induction ops with
  | nil =>
    intro L M h hinv
    simp only [applyOps, Except.ok.injEq] at h
    exact h ▸ hinv
  | cons op rest ih =>
    intro L M h hinv
    simp only [applyOps] at h
    cases hop : applyOp ca L op with
    | error e => rw [hop] at h; simp at h
    | ok L' =>
      rw [hop] at h
      obtain ⟨hs, ht⟩ := applyOp_conserves ca L op L' hop
      exact ih L' M h (by omega)

/-- C1: starting from any constructed ledger, after every sequence of
successful `transfer` and `transferFrom` operations (any callers, any
arguments), the sum of all stored balances equals `totalSupply`. -/
theorem C1_conservation (ca : Bytes32 → Bytes32) (s : Nat) (mint : Bytes32)
    (name symbol : String) (decimals : Nat) (ops : List Op) (M : Ledger)
    (h : applyOps ca (construct s mint name symbol decimals) ops = Except.ok M) :
    sumVals M.balances = M.totalSupply :=
  applyOps_conserves ca ops (construct s mint name symbol decimals) M h
    (by simp [construct, insertA, sumVals])

/-- Concrete ledger reached in the conservation witness run. -/
def LC1 : Ledger :=
  { tokenName := "TestToken", tokenSymbol := "TTK", tokenDecimals := 18
    totalSupply := 1000, balances := [(1, 700), (2, 300)], allowances := [] }

/-- Witness for C1 at a concrete run. -/
theorem C1_conservation_witness :
    applyOps id (construct 1000 1 "TestToken" "TTK" 18) [Op.transferOp 1 2 300]
        = Except.ok LC1 ∧
      sumVals LC1.balances = LC1.totalSupply :=
  ⟨rfl, C1_conservation id 1000 1 "TestToken" "TTK" 18 [Op.transferOp 1 2 300] LC1 rfl⟩

/-- C8: the constructor yields `totalSupply = initialSupply`, balance
`initialSupply` at the mint address, balance `0` at every other address,
empty allowances, and the three given metadata fields. -/
theorem C8_constructor (s : Nat) (mint : Bytes32) (name symbol : String)
    (decimals : Nat) (a : Bytes32) (ha : a ≠ mint) :
    (construct s mint name symbol decimals).totalSupply = s ∧
    balanceOf (construct s mint name symbol decimals) mint = s ∧
    balanceOf (construct s mint name symbol decimals) a = 0 ∧
    (construct s mint name symbol decimals).allowances = [] ∧
    (construct s mint name symbol decimals).tokenName = name ∧
    (construct s mint name symbol decimals).tokenSymbol = symbol ∧
    (construct s mint name symbol decimals).tokenDecimals = decimals := by
  refine ⟨rfl, ?_, ?_, rfl, rfl, rfl, rfl⟩
  · simp [construct, balanceOf, insertA, lookupA]
  · simp [construct, balanceOf, insertA, lookupA, Ne.symm ha]

/-- Witness for C8 with `initialSupply = 1000`, mint address `1` and the
distinct address `2`. -/
theorem C8_constructor_witness :
    (2 : Bytes32) ≠ 1 ∧
      ((construct 1000 1 "TestToken" "TTK" 18).totalSupply = 1000 ∧
        balanceOf (construct 1000 1 "TestToken" "TTK" 18) 1 = 1000 ∧
        balanceOf (construct 1000 1 "TestToken" "TTK" 18) 2 = 0 ∧
        (construct 1000 1 "TestToken" "TTK" 18).allowances = [] ∧
        (construct 1000 1 "TestToken" "TTK" 18).tokenName = "TestToken" ∧
        (construct 1000 1 "TestToken" "TTK" 18).tokenSymbol = "TTK" ∧
        (construct 1000 1 "TestToken" "TTK" 18).tokenDecimals = 18) :=
  ⟨by decide, C8_constructor 1000 1 "TestToken" "TTK" 18 2 (by decide)⟩

/-- C2: whenever a `transfer` or `transferFrom` call fails with any error,
the ledger after the call is the ledger before it: the failed circuit's
writes are rolled back, no partial write is observable. -/
theorem C2_failure_atomicity (ca : Bytes32 → Bytes32) (L : Ledger)
    (sk source dst : Bytes32) (amount : Nat) (e : Err) :
    ((transferCall ca L sk dst amount).2 = some e →
      (transferCall ca L sk dst amount).1 = L) ∧
    ((transferFromCall ca L sk source dst amount).2 = some e →
      (transferFromCall ca L sk source dst amount).1 = L) := by
  constructor
  · intro h
    simp only [transferCall] at h ⊢
    cases ht : transfer ca L sk dst amount with
    | ok M => simp [ht] at h
    | error e' => simp [ht]
  · intro h
    simp only [transferFromCall] at h ⊢
    cases ht : transferFrom ca L sk source dst amount with
    | ok M => simp [ht] at h
    | error e' => simp [ht]

/-- Pre-state for the atomicity witness: address `2` already holds the
largest representable balance, so crediting it overflows. -/
def LW2 : Ledger :=
  { tokenName := "TestToken", tokenSymbol := "TTK", tokenDecimals := 18
    totalSupply := 1000, balances := [(1, 5), (2, U222 - 1)], allowances := [] }

/-- Witness for C2: an `ArithmeticOverflow` failure of `transfer` (after its
internal debit) and a `NoAllowanceSet` failure of `transferFrom` both leave
the ledger unchanged. -/
theorem C2_failure_atomicity_witness :
    ((transferCall id LW2 1 2 3).2 = some Err.ArithmeticOverflow ∧
      (transferCall id LW2 1 2 3).1 = LW2) ∧
    ((transferFromCall id LW2 1 1 2 3).2 = some Err.NoAllowanceSet ∧
      (transferFromCall id LW2 1 1 2 3).1 = LW2) :=
  ⟨⟨rfl, (C2_failure_atomicity id LW2 1 1 2 3 Err.ArithmeticOverflow).1 rfl⟩,
   ⟨rfl, (C2_failure_atomicity id LW2 1 1 2 3 Err.NoAllowanceSet).2 rfl⟩⟩

/-- `approve` sets the caller's allowance for the spender absolutely. -/
theorem allowance_approve_self (ca : Bytes32 → Bytes32) (L : Ledger)
    (sk spender : Bytes32) (amount : Nat) :
    allowance (approve ca L sk spender amount) (ca sk) spender = amount := by
  rw [allowance_eq_lookupD]
  simp only [approve]
  rw [lookupA_insertA_self, Option.getD_some, lookupD_insertA_self]

/-- `approve` leaves every other allowance entry unchanged. -/
theorem allowance_approve_other (ca : Bytes32 → Bytes32) (L : Ledger)
    (sk spender : Bytes32) (amount : Nat) (o s : Bytes32)
    (hne : ¬(o = ca sk ∧ s = spender)) :
    allowance (approve ca L sk spender amount) o s = allowance L o s := by
  rw [allowance_eq_lookupD, allowance_eq_lookupD]
  simp only [approve]
  by_cases ho : o = ca sk
  · have hs : s ≠ spender := fun h => hne ⟨ho, h⟩
    subst ho
    rw [lookupA_insertA_self, Option.getD_some, lookupD_insertA_ne _ _ _ _ (Ne.symm hs)]
    by_cases hm : memberA L.allowances (ca sk)
    · rw [if_pos hm]
    · rw [if_neg hm, lookupA_insertA_self, Option.getD_some]
      unfold memberA at hm
      cases hL : lookupA L.allowances (ca sk) with
      | none => simp
      | some inner => rw [hL] at hm; simp at hm
  · rw [lookupA_insertA_ne _ _ _ _ (fun h => ho h.symm)]
    by_cases hm : memberA L.allowances (ca sk)
    · rw [if_pos hm]
    · rw [if_neg hm, lookupA_insertA_ne _ _ _ _ (fun h => ho h.symm)]

/-- C5: `approve` always succeeds on well-typed input (it is a total
function of the ledger) and afterwards the caller's allowance for the
spender equals the given amount, independently of any prior value; a second
`approve` overwrites the first, and every other allowance entry is
unchanged. -/
theorem C5_approve_overwrite (ca : Bytes32 → Bytes32) (L : Ledger)
    (sk spender : Bytes32) (amount A B : Nat) :
    allowance (approve ca L sk spender amount) (ca sk) spender = amount ∧
    (∀ o s : Bytes32, ¬(o = ca sk ∧ s = spender) →
      allowance (approve ca L sk spender amount) o s = allowance L o s) ∧
    allowance (approve ca (approve ca L sk spender A) sk spender B) (ca sk) spender
      = B :=
  ⟨allowance_approve_self ca L sk spender amount,
   fun o s hne => allowance_approve_other ca L sk spender amount o s hne,
   allowance_approve_self ca (approve ca L sk spender A) sk spender B⟩

/-- Witness for C5 on a concrete ledger: set then overwrite an allowance,
leaving the unrelated entry `(3, 2)` unchanged. -/
theorem C5_approve_overwrite_witness :
    allowance (approve id (construct 1000 1 "TestToken" "TTK" 18) 1 2 5) 1 2 = 5 ∧
    ¬((3 : Bytes32) = 1 ∧ (2 : Bytes32) = 2) ∧
    allowance (approve id (construct 1000 1 "TestToken" "TTK" 18) 1 2 5) 3 2
      = allowance (construct 1000 1 "TestToken" "TTK" 18) 3 2 ∧
    allowance (approve id (approve id (construct 1000 1 "TestToken" "TTK" 18) 1 2 7)
      1 2 9) 1 2 = 9 :=
  ⟨(C5_approve_overwrite id (construct 1000 1 "TestToken" "TTK" 18) 1 2 5 7 9).1,
   by decide,
   (C5_approve_overwrite id (construct 1000 1 "TestToken" "TTK" 18) 1 2 5 7 9).2.1
     3 2 (by decide),
   (C5_approve_overwrite id (construct 1000 1 "TestToken" "TTK" 18) 1 2 5 7 9).2.2⟩

/-- C4: when `transferFrom` succeeds with distinct source and destination,
the spender's allowance and the source balance each decrease by exactly the
amount, and the destination balance increases by exactly the amount. -/
theorem C4_transferFrom_effect (ca : Bytes32 → Bytes32) (L : Ledger)
    (sk source dst : Bytes32) (amount : Nat) (M : Ledger)
    (hne : source ≠ dst)
    (h : transferFrom ca L sk source dst amount = Except.ok M) :
    allowance M source (ca sk) + amount = allowance L source (ca sk) ∧
    balanceOf M source + amount = balanceOf L source ∧
    balanceOf M dst = balanceOf L dst + amount := by
  obtain ⟨h1, h2, h3, h4, h5, rfl⟩ := transferFrom_ok_inv ca L sk source dst amount M h
  refine ⟨?_, ?_, ?_⟩
  · rw [allowance_eq_lookupD, allowance_eq_lookupD]
    simp only [spentAllowances]
    rw [lookupA_insertA_self, Option.getD_some, lookupD_insertA_self]
    omega
  · rw [balanceOf_eq_lookupD, balanceOf_eq_lookupD]
    simp only [movedBalances]
    rw [lookupD_insertA_ne _ _ _ _ (fun h' => hne h'.symm), lookupD_insertA_self]
    omega
  · rw [balanceOf_eq_lookupD, balanceOf_eq_lookupD]
    simp only [movedBalances]
    rw [lookupD_insertA_self, lookupD_insertA_ne _ _ _ _ hne]

/-- Ledger after the C4 witness scenario. -/
def LC4 : Ledger :=
  { tokenName := "TestToken", tokenSymbol := "TTK", tokenDecimals := 18
    totalSupply := 1000, balances := [(1, 750), (2, 250)]
    allowances := [(1, [(3, 150)])] }

/-- Witness for C4: `approve(spender = 3, 400)` by owner `1`, then
`transferFrom(1, 2, 250)` by the spender leaves allowance `150` and credits
the recipient by exactly `250`. -/
theorem C4_transferFrom_effect_witness :
    (1 : Bytes32) ≠ 2 ∧
    transferFrom id (approve id (construct 1000 1 "TestToken" "TTK" 18) 1 3 400)
        3 1 2 250 = Except.ok LC4 ∧
    (allowance LC4 1 3 + 250
        = allowance (approve id (construct 1000 1 "TestToken" "TTK" 18) 1 3 400) 1 3 ∧
      balanceOf LC4 1 + 250
        = balanceOf (approve id (construct 1000 1 "TestToken" "TTK" 18) 1 3 400) 1 ∧
      balanceOf LC4 2
        = balanceOf (approve id (construct 1000 1 "TestToken" "TTK" 18) 1 3 400) 2
          + 250) ∧
    allowance LC4 1 3 = 150 ∧ balanceOf LC4 2 = 250 :=
  ⟨by decide, rfl,
   C4_transferFrom_effect id (approve id (construct 1000 1 "TestToken" "TTK" 18) 1 3 400)
     3 1 2 250 LC4 (by decide) rfl,
   rfl, rfl⟩

/-- Re-inserting the current defaulted value changes no defaulted lookup
(even though it may materialise an explicit zero entry). -/
theorem lookupD_insertA_same (m : List (Bytes32 × Nat)) (k a : Bytes32) :
    lookupD (insertA m k (lookupD m k)) a = lookupD m a := by
  rw [lookupD_insertA]
  by_cases h : k = a
  · subst h
    simp
  · rw [if_neg h]

/-- A zero-amount move changes no defaulted balance lookup. -/
theorem lookupD_movedBalances_zero (m : List (Bytes32 × Nat)) (s dst a : Bytes32) :
    lookupD (movedBalances m s dst 0) a = lookupD m a := by
  simp only [movedBalances, Nat.sub_zero, Nat.add_zero]
  rw [lookupD_insertA_same, lookupD_insertA_same]

/-- C6: a self-transfer of an amount within the caller's balance succeeds
and leaves the caller's balance unchanged; a successful `transferFrom` with
equal source and destination also leaves that balance unchanged while still
decrementing the spender's allowance by the amount. -/
theorem C6_self_transfer (ca : Bytes32 → Bytes32) (L : Ledger) (sk : Bytes32)
    (X : Nat) (a : Bytes32) (L' : Ledger) :
    (X ≤ balanceOf L (ca sk) → balanceOf L (ca sk) < U222 →
      isOk (transfer ca L sk (ca sk) X) = true ∧
      ∀ M, transfer ca L sk (ca sk) X = Except.ok M →
        balanceOf M (ca sk) = balanceOf L (ca sk)) ∧
    (transferFrom ca L sk a a X = Except.ok L' →
      balanceOf L' a = balanceOf L a ∧
      allowance L' a (ca sk) + X = allowance L a (ca sk)) := by
  constructor
  · intro hX hlt
    rw [balanceOf_eq_lookupD] at hX hlt
    have h2 : lookupD (insertA L.balances (ca sk) (lookupD L.balances (ca sk) - X))
        (ca sk) + X < U222 := by
      rw [lookupD_insertA_self]
      omega
    constructor
    · rw [transfer_ok_intro ca L sk (ca sk) X hX h2]
      rfl
    · intro M hM
      obtain ⟨-, -, rfl⟩ := transfer_ok_inv ca L sk (ca sk) X M hM
      rw [balanceOf_eq_lookupD, balanceOf_eq_lookupD]
      simp only [movedBalances]
      rw [lookupD_insertA_self, lookupD_insertA_self]
      omega
  · intro h
    obtain ⟨h1, h2, h3, h4, h5, rfl⟩ := transferFrom_ok_inv ca L sk a a X L' h
    constructor
    · rw [balanceOf_eq_lookupD, balanceOf_eq_lookupD]
      simp only [movedBalances]
      rw [lookupD_insertA_self, lookupD_insertA_self]
      omega
    · rw [allowance_eq_lookupD, allowance_eq_lookupD]
      simp only [spentAllowances]
      rw [lookupA_insertA_self, Option.getD_some, lookupD_insertA_self]
      omega

/-- Ledger after the C6 witness self-`transferFrom`. -/
def LC6 : Ledger :=
  { tokenName := "TestToken", tokenSymbol := "TTK", tokenDecimals := 18
    totalSupply := 1000, balances := [(1, 1000)], allowances := [(1, [(5, 100)])] }

/-- Witness for C6: a self-transfer of 400 out of 1000, and a
self-`transferFrom` of 200 under a 300 allowance. -/
theorem C6_self_transfer_witness :
    (400 ≤ balanceOf (construct 1000 1 "TestToken" "TTK" 18) 1 ∧
      balanceOf (construct 1000 1 "TestToken" "TTK" 18) 1 < U222 ∧
      isOk (transfer id (construct 1000 1 "TestToken" "TTK" 18) 1 1 400) = true ∧
      (∀ M, transfer id (construct 1000 1 "TestToken" "TTK" 18) 1 1 400 = Except.ok M →
        balanceOf M 1 = balanceOf (construct 1000 1 "TestToken" "TTK" 18) 1)) ∧
    (transferFrom id (approve id (construct 1000 1 "TestToken" "TTK" 18) 1 5 300)
        5 1 1 200 = Except.ok LC6 ∧
      balanceOf LC6 1
        = balanceOf (approve id (construct 1000 1 "TestToken" "TTK" 18) 1 5 300) 1 ∧
      allowance LC6 1 5 + 200
        = allowance (approve id (construct 1000 1 "TestToken" "TTK" 18) 1 5 300) 1 5) :=
  ⟨⟨by decide, by decide,
    ((C6_self_transfer id (construct 1000 1 "TestToken" "TTK" 18) 1 400 1 LC6).1
      (by decide) (by decide)).1,
    ((C6_self_transfer id (construct 1000 1 "TestToken" "TTK" 18) 1 400 1 LC6).1
      (by decide) (by decide)).2⟩,
   ⟨rfl,
    ((C6_self_transfer id (approve id (construct 1000 1 "TestToken" "TTK" 18) 1 5 300)
      5 200 1 LC6).2 rfl).1,
    ((C6_self_transfer id (approve id (construct 1000 1 "TestToken" "TTK" 18) 1 5 300)
      5 200 1 LC6).2 rfl).2⟩⟩

/-- C7 (amended): a zero-amount `transfer` on a well-typed ledger always
succeeds and changes no `balanceOf` or `allowance` observation, the total
supply or the metadata; the stored balances map may however gain explicit
zero entries for the caller's and the recipient's addresses. -/
theorem C7_zero_transfer (ca : Bytes32 → Bytes32) (L : Ledger) (sk dst : Bytes32)
    (hty : BalancesTyped L) :
    isOk (transfer ca L sk dst 0) = true ∧
    ∀ M, transfer ca L sk dst 0 = Except.ok M →
      (∀ a, balanceOf M a = balanceOf L a) ∧
      M.allowances = L.allowances ∧ M.totalSupply = L.totalSupply ∧
      M.tokenName = L.tokenName ∧ M.tokenSymbol = L.tokenSymbol ∧
      M.tokenDecimals = L.tokenDecimals := by
  have h1 : lookupD L.balances (ca sk) ≥ 0 := Nat.zero_le _
  have hf : lookupD L.balances (ca sk) < U222 := lookupD_lt_of_typed L.balances hty _
  have h2 : lookupD (insertA L.balances (ca sk) (lookupD L.balances (ca sk) - 0))
      dst + 0 < U222 := by
    simp only [Nat.sub_zero, Nat.add_zero]
    exact lookupD_lt_of_typed _ (typed_insertA L.balances (ca sk) _ hty hf) dst
  constructor
  · rw [transfer_ok_intro ca L sk dst 0 h1 h2]
    rfl
  · intro M hM
    obtain ⟨-, -, rfl⟩ := transfer_ok_inv ca L sk dst 0 M hM
    refine ⟨?_, rfl, rfl, rfl, rfl, rfl⟩
    intro a
    rw [balanceOf_eq_lookupD, balanceOf_eq_lookupD]
    exact lookupD_movedBalances_zero L.balances (ca sk) dst a

/-- Ledger produced by the C7 counterexample call: two explicit zero
entries have appeared. -/
def LC7 : Ledger :=
  { tokenName := "TestToken", tokenSymbol := "TTK", tokenDecimals := 18
    totalSupply := 1000, balances := [(1, 1000), (5, 0), (7, 0)], allowances := [] }

/-- C7 as stated is false: `transfer(to = 7, 0)` from the fresh caller `5`
succeeds but does not leave the ledger unchanged — the balances map gains
explicit zero entries for addresses `5` and `7`. -/
theorem C7_counterexample :
    transfer id (construct 1000 1 "TestToken" "TTK" 18) 5 7 0 = Except.ok LC7 ∧
      LC7 ≠ construct 1000 1 "TestToken" "TTK" 18 :=
  ⟨rfl, by decide⟩

/-- Witness for the amended C7 on the constructed ledger. -/
theorem C7_zero_transfer_witness :
    BalancesTyped (construct 1000 1 "TestToken" "TTK" 18) ∧
    isOk (transfer id (construct 1000 1 "TestToken" "TTK" 18) 5 7 0) = true ∧
    (∀ M, transfer id (construct 1000 1 "TestToken" "TTK" 18) 5 7 0 = Except.ok M →
      (∀ a, balanceOf M a = balanceOf (construct 1000 1 "TestToken" "TTK" 18) a) ∧
      M.allowances = (construct 1000 1 "TestToken" "TTK" 18).allowances ∧
      M.totalSupply = (construct 1000 1 "TestToken" "TTK" 18).totalSupply ∧
      M.tokenName = (construct 1000 1 "TestToken" "TTK" 18).tokenName ∧
      M.tokenSymbol = (construct 1000 1 "TestToken" "TTK" 18).tokenSymbol ∧
      M.tokenDecimals = (construct 1000 1 "TestToken" "TTK" 18).tokenDecimals) :=
  ⟨by decide,
   (C7_zero_transfer id (construct 1000 1 "TestToken" "TTK" 18) 5 7 (by decide)).1,
   (C7_zero_transfer id (construct 1000 1 "TestToken" "TTK" 18) 5 7 (by decide)).2⟩

/-- C9: in any state whose stored balances sum to at most `totalSupply`,
with `totalSupply` in the `Uint<222>` range — as holds in every state
reachable from construction — neither `transfer` nor `transferFrom` can
fail with `ArithmeticOverflow`: once the balance precondition has passed,
the credited sum is bounded by `totalSupply`, so the checked cast's failure
branch is unreachable. -/
theorem C9_no_overflow (ca : Bytes32 → Bytes32) (L : Ledger)
    (sk source dst : Bytes32) (amount : Nat)
    (hsum : sumVals L.balances ≤ L.totalSupply) (hts : L.totalSupply < U222) :
    transfer ca L sk dst amount ≠ Except.error Err.ArithmeticOverflow ∧
    transferFrom ca L sk source dst amount ≠ Except.error Err.ArithmeticOverflow := by
  constructor
  · simp only [transfer]
    split_ifs with h1 h2
    · simp
    · exfalso
      have e1 := sumVals_insertA L.balances (ca sk) (lookupD L.balances (ca sk) - amount)
      have e2 := lookupD_le_sumVals
        (insertA L.balances (ca sk) (lookupD L.balances (ca sk) - amount)) dst
      omega
    · simp
  · simp only [transferFrom]
    split_ifs with h1 h2 h3 h4 h5
    · simp
    · exfalso
      have e1 := sumVals_insertA L.balances source (lookupD L.balances source - amount)
      have e2 := lookupD_le_sumVals
        (insertA L.balances source (lookupD L.balances source - amount)) dst
      omega
    · simp
    · simp
    · simp
    · simp

/-- Witness for C9 on the constructed ledger, where the sums are exact. -/
theorem C9_no_overflow_witness :
    sumVals (construct 1000 1 "TestToken" "TTK" 18).balances
        ≤ (construct 1000 1 "TestToken" "TTK" 18).totalSupply ∧
      (construct 1000 1 "TestToken" "TTK" 18).totalSupply < U222 ∧
      transfer id (construct 1000 1 "TestToken" "TTK" 18) 1 2 400
        ≠ Except.error Err.ArithmeticOverflow ∧
      transferFrom id (construct 1000 1 "TestToken" "TTK" 18) 3 1 2 400
        ≠ Except.error Err.ArithmeticOverflow :=
  ⟨by decide, by decide,
   (C9_no_overflow id (construct 1000 1 "TestToken" "TTK" 18) 1 1 2 400
     (by decide) (by decide)).1,
   (C9_no_overflow id (construct 1000 1 "TestToken" "TTK" 18) 3 1 2 400
     (by decide) (by decide)).2⟩

/-- Missing or incomplete allowance entry: `transferFrom` reports
`NoAllowanceSet`. -/
theorem transferFrom_noAllowance (ca : Bytes32 → Bytes32) (L : Ledger)
    (sk source dst : Bytes32) (amount : Nat)
    (h : ¬(memberA L.allowances source = true ∧
      memberA ((lookupA L.allowances source).getD []) (ca sk) = true)) :
    transferFrom ca L sk source dst amount = Except.error Err.NoAllowanceSet := by
  simp only [transferFrom]
  by_cases h1 : memberA L.allowances source = true
  · rw [if_pos h1, if_neg (fun hb => h ⟨h1, hb⟩)]
  · rw [if_neg h1]

/-- Allowance entry exists but is smaller than the amount:
`InsufficientAllowance`. -/
theorem transferFrom_insufficientAllowance (ca : Bytes32 → Bytes32) (L : Ledger)
    (sk source dst : Bytes32) (amount : Nat)
    (h1 : memberA L.allowances source = true)
    (h2 : memberA ((lookupA L.allowances source).getD []) (ca sk) = true)
    (h3 : lookupD ((lookupA L.allowances source).getD []) (ca sk) < amount) :
    transferFrom ca L sk source dst amount
      = Except.error Err.InsufficientAllowance := by
  simp only [transferFrom]
  rw [if_pos h1, if_pos h2,
    if_neg (show ¬(lookupA ((lookupA L.allowances source).getD []) (ca sk)).getD 0
      ≥ amount from by simpa [lookupD] using Nat.not_le.mpr h3)]

/-- Allowance suffices but the source balance does not:
`InsufficientBalance`. -/
theorem transferFrom_insufficientBalance (ca : Bytes32 → Bytes32) (L : Ledger)
    (sk source dst : Bytes32) (amount : Nat)
    (h1 : memberA L.allowances source = true)
    (h2 : memberA ((lookupA L.allowances source).getD []) (ca sk) = true)
    (h3 : lookupD ((lookupA L.allowances source).getD []) (ca sk) ≥ amount)
    (h4 : lookupD L.balances source < amount) :
    transferFrom ca L sk source dst amount
      = Except.error Err.InsufficientBalance := by
  simp only [transferFrom]
  rw [if_pos h1, if_pos h2,
    if_pos (show (lookupA ((lookupA L.allowances source).getD []) (ca sk)).getD 0
      ≥ amount from h3),
    if_neg (Nat.not_le.mpr h4)]

/-- All preconditions pass but the credit overflows: `ArithmeticOverflow`. -/
theorem transferFrom_overflow (ca : Bytes32 → Bytes32) (L : Ledger)
    (sk source dst : Bytes32) (amount : Nat)
    (h1 : memberA L.allowances source = true)
    (h2 : memberA ((lookupA L.allowances source).getD []) (ca sk) = true)
    (h3 : lookupD ((lookupA L.allowances source).getD []) (ca sk) ≥ amount)
    (h4 : lookupD L.balances source ≥ amount)
    (h5 : ¬ lookupD (insertA L.balances source (lookupD L.balances source - amount)) dst
      + amount < U222) :
    transferFrom ca L sk source dst amount
      = Except.error Err.ArithmeticOverflow := by
  simp only [transferFrom]
  rw [if_pos h1, if_pos h2,
    if_pos (show (lookupA ((lookupA L.allowances source).getD []) (ca sk)).getD 0
      ≥ amount from h3),
    if_pos h4, if_neg h5]

/-- C3 (amended): `transferFrom` checks its preconditions in the fixed
order missing-entry, allowance size, source balance — the first failing one
determines the error — and when all three pass it succeeds unless the
credited balance overflows the `Uint<222>` range, in which case it fails
with `ArithmeticOverflow`. -/
theorem C3_transferFrom_order (ca : Bytes32 → Bytes32) (L : Ledger)
    (sk source dst : Bytes32) (amount : Nat) :
    (¬(memberA L.allowances source = true ∧
        memberA ((lookupA L.allowances source).getD []) (ca sk) = true) →
      transferFrom ca L sk source dst amount = Except.error Err.NoAllowanceSet) ∧
    (memberA L.allowances source = true →
      memberA ((lookupA L.allowances source).getD []) (ca sk) = true →
      allowance L source (ca sk) < amount →
      transferFrom ca L sk source dst amount
        = Except.error Err.InsufficientAllowance) ∧
    (memberA L.allowances source = true →
      memberA ((lookupA L.allowances source).getD []) (ca sk) = true →
      allowance L source (ca sk) ≥ amount →
      balanceOf L source < amount →
      transferFrom ca L sk source dst amount
        = Except.error Err.InsufficientBalance) ∧
    (memberA L.allowances source = true →
      memberA ((lookupA L.allowances source).getD []) (ca sk) = true →
      allowance L source (ca sk) ≥ amount →
      balanceOf L source ≥ amount →
      lookupD (insertA L.balances source (balanceOf L source - amount)) dst
          + amount < U222 →
      isOk (transferFrom ca L sk source dst amount) = true) ∧
    (memberA L.allowances source = true →
      memberA ((lookupA L.allowances source).getD []) (ca sk) = true →
      allowance L source (ca sk) ≥ amount →
      balanceOf L source ≥ amount →
      ¬ lookupD (insertA L.balances source (balanceOf L source - amount)) dst
          + amount < U222 →
      transferFrom ca L sk source dst amount
        = Except.error Err.ArithmeticOverflow) := by
  refine ⟨?_, ?_, ?_, ?_, ?_⟩
  · exact transferFrom_noAllowance ca L sk source dst amount
  · intro h1 h2 h3
    rw [allowance_eq_lookupD] at h3
    exact transferFrom_insufficientAllowance ca L sk source dst amount h1 h2 h3
  · intro h1 h2 h3 h4
    rw [allowance_eq_lookupD] at h3
    rw [balanceOf_eq_lookupD] at h4
    exact transferFrom_insufficientBalance ca L sk source dst amount h1 h2 h3 h4
  · intro h1 h2 h3 h4 h5
    rw [allowance_eq_lookupD] at h3
    rw [balanceOf_eq_lookupD] at h4 h5
    rw [transferFrom_ok_intro ca L sk source dst amount h1 h2 h3 h4 h5]
    rfl
  · intro h1 h2 h3 h4 h5
    rw [allowance_eq_lookupD] at h3
    rw [balanceOf_eq_lookupD] at h4 h5
    exact transferFrom_overflow ca L sk source dst amount h1 h2 h3 h4 h5

/-- State refuting C3 as originally stated: the recipient already holds the
maximum representable balance. -/
def LC3 : Ledger :=
  { tokenName := "TestToken", tokenSymbol := "TTK", tokenDecimals := 18
    totalSupply := 1000, balances := [(1, 1), (2, U222 - 1)]
    allowances := [(1, [(3, 1)])] }

/-- C3 as stated is false: in `LC3` all three preconditions of
`transferFrom(1, 2, 1)` by spender `3` hold, yet the call does not succeed —
it fails with `ArithmeticOverflow` because the credit to `2` leaves the
`Uint<222>` range. -/
theorem C3_counterexample :
    memberA LC3.allowances 1 = true ∧
    memberA ((lookupA LC3.allowances 1).getD []) 3 = true ∧
    allowance LC3 1 3 ≥ 1 ∧
    balanceOf LC3 1 ≥ 1 ∧
    transferFrom id LC3 3 1 2 1 = Except.error Err.ArithmeticOverflow :=
  ⟨rfl, rfl, by decide, by decide, rfl⟩

/-- Witness for the amended C3, exercising all five branches on concrete
states. -/
theorem C3_transferFrom_order_witness :
    (¬(memberA (construct 1000 1 "TestToken" "TTK" 18).allowances 1 = true ∧
        memberA ((lookupA (construct 1000 1 "TestToken" "TTK" 18).allowances 1).getD [])
          3 = true) ∧
      transferFrom id (construct 1000 1 "TestToken" "TTK" 18) 3 1 2 5
        = Except.error Err.NoAllowanceSet) ∧
    (allowance (approve id (construct 1000 1 "TestToken" "TTK" 18) 1 3 400) 1 3 < 2000 ∧
      transferFrom id (approve id (construct 1000 1 "TestToken" "TTK" 18) 1 3 400)
          3 1 2 2000 = Except.error Err.InsufficientAllowance) ∧
    (balanceOf (approve id (construct 1000 1 "TestToken" "TTK" 18) 1 3 3000) 1 < 2000 ∧
      transferFrom id (approve id (construct 1000 1 "TestToken" "TTK" 18) 1 3 3000)
          3 1 2 2000 = Except.error Err.InsufficientBalance) ∧
    (isOk (transferFrom id (approve id (construct 1000 1 "TestToken" "TTK" 18) 1 3 400)
        3 1 2 250) = true) ∧
    (transferFrom id LC3 3 1 2 1 = Except.error Err.ArithmeticOverflow) :=
  ⟨⟨by decide,
    (C3_transferFrom_order id (construct 1000 1 "TestToken" "TTK" 18) 3 1 2 5).1
      (by decide)⟩,
   ⟨by decide,
    (C3_transferFrom_order id (approve id (construct 1000 1 "TestToken" "TTK" 18) 1 3 400)
      3 1 2 2000).2.1 (by decide) (by decide) (by decide)⟩,
   ⟨by decide,
    (C3_transferFrom_order id (approve id (construct 1000 1 "TestToken" "TTK" 18) 1 3 3000)
      3 1 2 2000).2.2.1 (by decide) (by decide) (by decide) (by decide)⟩,
   (C3_transferFrom_order id (approve id (construct 1000 1 "TestToken" "TTK" 18) 1 3 400)
     3 1 2 250).2.2.2.1 (by decide) (by decide) (by decide) (by decide) (by decide),
   (C3_transferFrom_order id LC3 3 1 2 1).2.2.2.2 (by decide) (by decide) (by decide)
     (by decide) (by decide)⟩

/-- A zero-amount spend changes no defaulted allowance observation. -/
theorem lookupD_spentAllowances_zero (al : List (Bytes32 × List (Bytes32 × Nat)))
    (source spender o s : Bytes32) :
    lookupD ((lookupA (spentAllowances al source spender 0) o).getD []) s
      = lookupD ((lookupA al o).getD []) s := by
  simp only [spentAllowances, Nat.sub_zero]
  by_cases ho : source = o
  · subst ho
    rw [lookupA_insertA_self, Option.getD_some]
    exact lookupD_insertA_same _ _ _
  · rw [lookupA_insertA_ne _ _ _ _ ho]

/-- C10: a zero-amount `transferFrom` fails with `NoAllowanceSet` whenever
no allowance entry exists for the owner/spender pair — an explicit
`approve(spender, 0)` differs observably from never having approved — and
after `approve(spender, 0)` the same zero-amount call succeeds and leaves
every `balanceOf` and `allowance` observation unchanged. -/
theorem C10_zero_allowance (ca : Bytes32 → Bytes32) (L : Ledger)
    (sko sks dst : Bytes32) :
    (¬(memberA L.allowances (ca sko) = true ∧
        memberA ((lookupA L.allowances (ca sko)).getD []) (ca sks) = true) →
      transferFrom ca L sks (ca sko) dst 0 = Except.error Err.NoAllowanceSet) ∧
    (BalancesTyped L →
      isOk (transferFrom ca (approve ca L sko (ca sks) 0) sks (ca sko) dst 0) = true ∧
      ∀ M, transferFrom ca (approve ca L sko (ca sks) 0) sks (ca sko) dst 0
          = Except.ok M →
        (∀ a, balanceOf M a = balanceOf (approve ca L sko (ca sks) 0) a) ∧
        (∀ o s, allowance M o s = allowance (approve ca L sko (ca sks) 0) o s)) := by
  constructor
  · exact transferFrom_noAllowance ca L sks (ca sko) dst 0
  · intro hty
    have hball : (approve ca L sko (ca sks) 0).balances = L.balances := rfl
    have h1 : memberA (approve ca L sko (ca sks) 0).allowances (ca sko) = true := by
      simp only [approve, memberA]
      rw [lookupA_insertA_self]
      rfl
    have h2 : memberA ((lookupA (approve ca L sko (ca sks) 0).allowances (ca sko)).getD [])
        (ca sks) = true := by
      simp only [approve, memberA]
      rw [lookupA_insertA_self, Option.getD_some, lookupA_insertA_self]
      rfl
    have h5 : lookupD (insertA (approve ca L sko (ca sks) 0).balances (ca sko)
        (lookupD (approve ca L sko (ca sks) 0).balances (ca sko) - 0)) dst + 0
          < U222 := by
      rw [hball]
      simp only [Nat.sub_zero, Nat.add_zero]
      exact lookupD_lt_of_typed _ (typed_insertA L.balances (ca sko) _ hty
        (lookupD_lt_of_typed L.balances hty _)) dst
    constructor
    · rw [transferFrom_ok_intro ca (approve ca L sko (ca sks) 0) sks (ca sko) dst 0
        h1 h2 (Nat.zero_le _) (Nat.zero_le _) h5]
      rfl
    · intro M hM
      obtain ⟨-, -, -, -, -, rfl⟩ := transferFrom_ok_inv ca (approve ca L sko (ca sks) 0)
        sks (ca sko) dst 0 M hM
      constructor
      · intro a
        rw [balanceOf_eq_lookupD, balanceOf_eq_lookupD, hball]
        exact lookupD_movedBalances_zero _ (ca sko) dst a
      · intro o s
        rw [allowance_eq_lookupD, allowance_eq_lookupD]
        exact lookupD_spentAllowances_zero _ (ca sko) (ca sks) o s

/-- Witness for C10 on the constructed ledger: owner `1`, spender `3`. -/
theorem C10_zero_allowance_witness :
    (¬(memberA (construct 1000 1 "TestToken" "TTK" 18).allowances 1 = true ∧
        memberA ((lookupA (construct 1000 1 "TestToken" "TTK" 18).allowances 1).getD [])
          3 = true) ∧
      transferFrom id (construct 1000 1 "TestToken" "TTK" 18) 3 1 2 0
        = Except.error Err.NoAllowanceSet) ∧
    (BalancesTyped (construct 1000 1 "TestToken" "TTK" 18) ∧
      isOk (transferFrom id (approve id (construct 1000 1 "TestToken" "TTK" 18) 1 3 0)
        3 1 2 0) = true ∧
      (∀ M, transferFrom id (approve id (construct 1000 1 "TestToken" "TTK" 18) 1 3 0)
          3 1 2 0 = Except.ok M →
        (∀ a, balanceOf M a
          = balanceOf (approve id (construct 1000 1 "TestToken" "TTK" 18) 1 3 0) a) ∧
        (∀ o s, allowance M o s
          = allowance (approve id (construct 1000 1 "TestToken" "TTK" 18) 1 3 0) o s))) :=
  ⟨⟨by decide,
    (C10_zero_allowance id (construct 1000 1 "TestToken" "TTK" 18) 1 3 2).1 (by decide)⟩,
   ⟨by decide,
    ((C10_zero_allowance id (construct 1000 1 "TestToken" "TTK" 18) 1 3 2).2
      (by decide)).1,
    ((C10_zero_allowance id (construct 1000 1 "TestToken" "TTK" 18) 1 3 2).2
      (by decide)).2⟩⟩

end MERC20
